import Mathlib

/-!
Verification development for the conversation/session orchestration layer of
the PPT slide-generator chat application.

The definitions below are a shallow embedding of the TypeScript source:

- the context-editing policy `determineEditStrategies`
  (lib/acontext-integration.ts);
- the message store adapter `storeMessageInAcontext` /
  `loadMessagesFromAcontext` (same module), with the external durable
  conversation store modelled as an append-only log of stored blobs;
- the session lifecycle functions `createAcontextSessionDirectly` and
  `deleteAcontextSession` (same module), with the external durable
  session/disk provider modelled as lists of allocated record ids;
- the request pipeline of POST /api/chatbot (app/api/chatbot/route.ts),
  modelled as a function from an abstract request to an HTTP status plus an
  ordered trace of the externally visible effects it performs.

External collaborators (the durable store, the model provider, Supabase) are
represented by explicit environment records whose boolean fields say whether
the collaborator is configured and whether a given call fails; fallible calls
are total functions on those environments.
-/

namespace PptOrch

/-! ## Context editing policy (lib/acontext-integration.ts) -/

/-- Token count information from Acontext (interface TokenCounts). -/
structure TokenCounts where
  total_tokens : Nat
  deriving DecidableEq, Repr

/-- One edit strategy, mirroring the EditStrategy union type of the source:
token_limit, remove_tool_result, remove_tool_call_params, each with its
params record inlined as constructor arguments. -/
inductive EditStrategy
  | tokenLimit (limit_tokens : Nat)
  | removeToolResult (keep_recent_n_tool_results : Nat) (tool_result_placeholder : String)
  | removeToolCallParams (keep_recent_n_tool_calls : Nat)
  deriving DecidableEq, Repr

/-- The JavaScript value found in the optional toolCalls field of a message
passed to determineEditStrategies: absent (undefined/null/falsy), a truthy
non-array value, or an array of n elements.  The source counts an array by
its length and a truthy non-array value as one call. -/
inductive JsToolCalls
  | absent
  | single
  | array (n : Nat)
  deriving DecidableEq, Repr

/-- Number of tool calls the source attributes to one toolCalls field:
`Array.isArray(msg.toolCalls) ? msg.toolCalls : [msg.toolCalls]` then
`.length`, guarded by a truthiness check. -/
def JsToolCalls.count : JsToolCalls → Nat
  | .absent => 0
  | .single => 1
  | .array n => n

/-- Shape of one message as seen by determineEditStrategies:
`{ role: string; toolCalls?: unknown }`. -/
structure PolicyMsg where
  role : String
  toolCalls : JsToolCalls
  deriving DecidableEq, Repr

/-- Optional configuration record of determineEditStrategies; every field is
optional and defaulted with `??` in the source. -/
structure EditConfig where
  tokenLimitThreshold : Option Nat
  tokenLimitTarget : Option Nat
  toolResultThreshold : Option Nat
  toolCallThreshold : Option Nat
  deriving DecidableEq, Repr

/-- The loop of determineEditStrategies that sums toolCalls counts over the
messages. -/
def countToolCalls (messages : List PolicyMsg) : Nat :=
  messages.foldl (fun acc m => acc + m.toolCalls.count) 0

/-- The loop of determineEditStrategies that counts messages whose role is
the string "tool". -/
def countToolResults (messages : List PolicyMsg) : Nat :=
  messages.foldl (fun acc m => acc + (if m.role = "tool" then 1 else 0)) 0

/-- Embedding of determineEditStrategies (lib/acontext-integration.ts).
Mirrors the source control flow: defaulted thresholds; early return of the
empty list when tokenCounts is null or total_tokens is 0; then three guarded
pushes, where the second and third fire only while the accumulated list is
still empty. -/
def determineEditStrategies (tokenCounts : Option TokenCounts)
    (messages : List PolicyMsg) (config : Option EditConfig) : List EditStrategy :=
  let tokenLimitThreshold := (config.bind (·.tokenLimitThreshold)).getD 80000
  let tokenLimitTarget := (config.bind (·.tokenLimitTarget)).getD 70000
  let toolResultThreshold := (config.bind (·.toolResultThreshold)).getD 5
  let toolCallThreshold := (config.bind (·.toolCallThreshold)).getD 10
  match tokenCounts with
  | none => []
  | some tc =>
    if tc.total_tokens = 0 then []
    else
      let toolCallCount := countToolCalls messages
      let toolResultCount := countToolResults messages
      let strategies : List EditStrategy :=
        if tc.total_tokens > tokenLimitThreshold then
          [EditStrategy.tokenLimit tokenLimitTarget]
        else []
      let strategies :=
        if toolResultCount > toolResultThreshold ∧ strategies.length = 0 then
          strategies ++ [EditStrategy.removeToolResult
            (max 3 (toolResultThreshold / 2)) "Done"]
        else strategies
      let strategies :=
        if toolCallCount > toolCallThreshold ∧ strategies.length = 0 then
          strategies ++ [EditStrategy.removeToolCallParams
            (max 3 (toolCallThreshold / 2))]
        else strategies
      strategies

/-! ## Message content data model (types/chat.ts and route.ts) -/

/-- Message role for stored messages: the union "user" | "assistant" |
"system" of the source. -/
inductive Role
  | user
  | assistant
  | system
  deriving DecidableEq, Repr

/-- One element of a multi-part (Vision API style) content array:
`{ type: "text"; text }` or `{ type: "image_url"; image_url: { url } }`. -/
inductive ContentPart
  | text (text : String)
  | imageUrl (url : String)
  deriving DecidableEq, Repr

/-- Message content: plain string, or an ordered array of typed parts. -/
inductive Content
  | str (s : String)
  | parts (ps : List ContentPart)
  deriving DecidableEq, Repr

/-- A ToolInvocation record as attached to assistant messages
(types/chat.ts); only the identifying fields matter to the claims. -/
structure ToolInvocation where
  id : String
  name : String
  arguments : String
  deriving DecidableEq, Repr

/-- One message blob as written to the durable conversation store.  The
source builds `messageBlob = { role, content }`; the optional tool_calls
field models whether a tool_calls entry is present in the blob. -/
structure StoredBlob where
  role : Role
  content : Content
  tool_calls : Option (List ToolInvocation)
  deriving DecidableEq, Repr

/-- The external durable conversation store, modelled as an append-only log
of (sessionId, blob) pairs across all sessions. -/
abbrev SessionStore := List (String × StoredBlob)

/-- External-collaborator environment for the message store adapter:
whether the Acontext client is configured, and whether the store / load
calls fail (throw) when reached. -/
structure StoreEnv where
  clientConfigured : Bool
  storeFails : Bool
  loadFails : Bool
  deriving DecidableEq, Repr

/-- The getMessages surface of the external store without edit strategies:
all blobs recorded for the session, in append order. -/
def getMessagesRaw (store : SessionStore) (acontextSessionId : String) :
    List StoredBlob :=
  (store.filter (fun e => e.1 = acontextSessionId)).map (·.2)

/-- Embedding of storeMessageInAcontext (lib/acontext-integration.ts).
Returns false when the client is not configured; builds the blob
`{ role, content }` with no tool_calls entry; a failing storeMessage call is
caught and surfaced as false; on success the blob is appended and true is
returned.  The Bool return type (rather than an exception type) mirrors the
contract that the function never throws. -/
def storeMessageInAcontext (env : StoreEnv) (store : SessionStore)
    (acontextSessionId : String) (role : Role) (content : Content) :
    Bool × SessionStore :=
  if ¬ env.clientConfigured then (false, store)
  else
    let messageBlob : StoredBlob :=
      { role := role, content := content, tool_calls := none }
    if env.storeFails then (false, store)
    else (true, store ++ [(acontextSessionId, messageBlob)])

/-- One chat message as returned by loadMessagesFromAcontext. -/
structure ChatMessage where
  id : String
  sessionId : String
  role : Role
  content : Content
  toolCalls : Option (List ToolInvocation)
  deriving DecidableEq, Repr

/-- Embedding of loadMessagesFromAcontext (lib/acontext-integration.ts).
Returns [] when the client is not configured or the session id is empty
(falsy); a failing getMessages call is caught and surfaced as [].  Edit
strategies are forwarded to the external store only when the list is present
and non-empty; the rewrite the store then applies is external behaviour and
is passed in as applyEditStrategies.  Each returned item keeps its content
as stored (string kept as string, part array kept as a part array) and maps
the blob tool_calls entry, absent entries becoming none; message ids fall
back to "acontext-" ++ index as in the source. -/
def loadMessagesFromAcontext (env : StoreEnv)
    (applyEditStrategies : List EditStrategy → List StoredBlob → List StoredBlob)
    (store : SessionStore) (acontextSessionId : String)
    (editStrategies : Option (List EditStrategy)) : List ChatMessage :=
  if ¬ env.clientConfigured ∨ acontextSessionId = "" then []
  else if env.loadFails then []
  else
    let raw := getMessagesRaw store acontextSessionId
    let items :=
      match editStrategies with
      | some ss => if 0 < ss.length then applyEditStrategies ss raw else raw
      | none => raw
    items.enum.map (fun p =>
      { id := "acontext-" ++ toString p.1
        sessionId := acontextSessionId
        role := p.2.role
        content := p.2.content
        toolCalls := p.2.tool_calls })

/-- Embedding of the final_message branch of the streaming path of
POST /api/chatbot (app/api/chatbot/route.ts): when acontextSessionId is
truthy the assistant message is persisted with only the final text —
`storeMessageInAcontext(acontextSessionId, "assistant", event.message)` —
and the tool-call list of the turn (event.toolCalls, the unused last
parameter here) is not passed to the store. -/
def persistFinalMessageStreaming (env : StoreEnv) (store : SessionStore)
    (acontextSessionId : String) (finalText : String)
    (_turnToolCalls : List ToolInvocation) : SessionStore :=
  if acontextSessionId = "" then store
  else
    (storeMessageInAcontext env store acontextSessionId Role.assistant
      (Content.str finalText)).2

/-! ## User message assembly with attachments (app/api/chatbot/route.ts) -/

/-- One uploaded attachment as collected into attachmentInfo by the route:
filename, base64 content, declared mime type. -/
structure AttachmentInfo where
  filename : String
  content : String
  mimeType : String
  deriving DecidableEq, Repr

/-- The image test of the route: `att.mimeType.startsWith("image/")`,
modelled over the character list of the string. -/
def isImageAttachment (att : AttachmentInfo) : Bool :=
  "image/".data.isPrefixOf att.mimeType.data

/-- Truthiness of `body.message.trim()` in the route: the typed message
holds at least one non-whitespace character. -/
def messageHasText (message : String) : Bool :=
  message.data.any (fun c => ¬ c.isWhitespace)

/-- The data URL the route builds for an image attachment. -/
def attachmentDataUrl (att : AttachmentInfo) : String :=
  "data:" ++ att.mimeType ++ ";base64," ++ att.content

/-- The trailing text reference the route pushes for a non-image attachment
inside the Vision-format branch (single leading newline). -/
def attachmentRefText (att : AttachmentInfo) : String :=
  "\n[Attachment: " ++ att.filename ++ " (" ++ att.mimeType ++ ")]"

/-- Embedding of the user-message assembly of POST /api/chatbot
(route.ts, attachment handling): with at least one image attachment the
content is a part array holding the typed message text (when non-blank)
followed by one part per attachment in attachment order — an image part for
an image, a text reference for anything else; with only non-image
attachments the content is the message string with double-newline references
appended; with no attachments it is the plain message string. -/
def buildUserMessageContent (message : String)
    (attachmentInfo : List AttachmentInfo) : Content :=
  if 0 < attachmentInfo.length then
    if attachmentInfo.any isImageAttachment then
      let textParts : List ContentPart :=
        if messageHasText message then [ContentPart.text message] else []
      let attParts : List ContentPart :=
        attachmentInfo.map (fun att =>
          if isImageAttachment att then ContentPart.imageUrl (attachmentDataUrl att)
          else ContentPart.text (attachmentRefText att))
      Content.parts (textParts ++ attParts)
    else
      Content.str (attachmentInfo.foldl
        (fun acc att =>
          acc ++ "\n\n[Attachment: " ++ att.filename ++ " (" ++ att.mimeType ++ ")]")
        message)
  else Content.str message

/-- The part list the route produces for one attachment list, written as
plain structural recursion; used to state the amended ordering claim in a
form independent of the List.map combinator used in the embedding. -/
def attachmentParts : List AttachmentInfo → List ContentPart
  | [] => []
  | att :: rest =>
    (if isImageAttachment att then ContentPart.imageUrl (attachmentDataUrl att)
     else ContentPart.text (attachmentRefText att)) :: attachmentParts rest

/-- The assembly order stated by the spec, written from the words of the
spec for comparison with buildUserMessageContent (which is embedded from the
source): the text part of the typed message first, then all image parts,
then text references for the non-image attachments as trailing parts. -/
def buildUserMessageContentSpecOrder (message : String)
    (attachmentInfo : List AttachmentInfo) : Content :=
  let textParts : List ContentPart :=
    if messageHasText message then [ContentPart.text message] else []
  let imageParts : List ContentPart :=
    (attachmentInfo.filter isImageAttachment).map
      (fun att => ContentPart.imageUrl (attachmentDataUrl att))
  let refParts : List ContentPart :=
    (attachmentInfo.filter (fun att => ¬ isImageAttachment att)).map
      (fun att => ContentPart.text (attachmentRefText att))
  Content.parts (textParts ++ imageParts ++ refParts)

/-! ## Request pipeline of POST /api/chatbot (app/api/chatbot/route.ts) -/

/-- The message field of a parsed request body as the validation code sees
it: absent (or another falsy non-string value), present but a truthy
non-string value, or a string. -/
inductive MessageField
  | absent
  | nonString
  | str (s : String)
  deriving DecidableEq, Repr

/-- Abstract POST /api/chatbot request: whether authentication succeeds,
whether the body parses as JSON, the message field, the attachments, and
whether the LLM configuration loads. -/
structure ChatRequestModel where
  authenticated : Bool
  bodyParses : Bool
  message : MessageField
  attachments : List AttachmentInfo
  llmConfigOk : Bool
  deriving DecidableEq, Repr

/-- Externally visible work items of one request, in the order the route
performs them. -/
inductive Effect
  | sessionResolved
  | attachmentUploaded (filename : String)
  | historyLoaded
  | userMessageStored (content : Content)
  | modelInvoked
  | assistantMessageStored (finalText : String)
  deriving DecidableEq, Repr

/-- Embedding of the control flow of POST /api/chatbot as (HTTP status,
ordered effect trace).  Mirrors the route order: authentication (401), body
parse (400), message falsy or non-string (400), message longer than 100000
characters (400), LLM configuration (500); only then session resolution,
per-attachment uploads, history load, user-message persistence (content as
assembled by buildUserMessageContent), model invocation, and
assistant-message persistence.  finalText stands for the model answer of a
successful turn. -/
def postPipeline (req : ChatRequestModel) (finalText : String) :
    Nat × List Effect :=
  if ¬ req.authenticated then (401, [])
  else if ¬ req.bodyParses then (400, [])
  else
    match req.message with
    | MessageField.absent => (400, [])
    | MessageField.nonString => (400, [])
    | MessageField.str s =>
      if s = "" then (400, [])
      else if 100000 < s.length then (400, [])
      else if ¬ req.llmConfigOk then (500, [])
      else
        (200,
          Effect.sessionResolved ::
            (req.attachments.map (fun att => Effect.attachmentUploaded att.filename)
              ++ [Effect.historyLoaded,
                  Effect.userMessageStored (buildUserMessageContent s req.attachments),
                  Effect.modelInvoked,
                  Effect.assistantMessageStored finalText]))

/-! ## Session lifecycle (lib/acontext-integration.ts and lib/chat-session.ts) -/

/-- One row of the chat_sessions mapping table.  The source also records an
acontext_space_id used for skill learning; Spaces play no part in any claim
and are omitted. -/
structure ChatSessionRow where
  id : String
  user_id : String
  acontext_session_id : Option String
  acontext_disk_id : Option String
  title : String
  deriving DecidableEq, Repr

/-- Combined state of the local mapping table and the external durable
provider: the chat_sessions rows, the ids of the durable session records
and durable disk (workspace) records that currently exist at the provider,
and a counter for fresh ids. -/
structure LifecycleState where
  rows : List ChatSessionRow
  durableSessions : List String
  durableDisks : List String
  nextId : Nat
  deriving DecidableEq, Repr

/-- Environment for the lifecycle functions: client configuration and
failure switches for each external call. -/
structure LifecycleEnv where
  clientConfigured : Bool
  sessionCreateFails : Bool
  diskCreateFails : Bool
  insertFails : Bool
  deleteMappingFails : Bool
  deriving DecidableEq, Repr

/-- Embedding of createAcontextSessionDirectly
(lib/acontext-integration.ts): returns null when the client is not
configured or the session create call fails; otherwise allocates a durable
session record, then tries to allocate a dedicated disk (a failure is
logged and the session continues without a disk), then inserts the
chat_sessions mapping row with the Acontext session id as the row id (an
insert failure is logged and the ids are still returned).  The Space
binding of the source is configuration payload only and is not modelled. -/
def createAcontextSessionDirectly (env : LifecycleEnv) (st : LifecycleState)
    (userId : String) (title : Option String) :
    Option (String × String) × LifecycleState :=
  if ¬ env.clientConfigured then (none, st)
  else if env.sessionCreateFails then (none, st)
  else
    let acxId := "acx-sess-" ++ toString st.nextId
    let st1 : LifecycleState :=
      { st with durableSessions := st.durableSessions ++ [acxId],
                nextId := st.nextId + 1 }
    let step2 : Option String × LifecycleState :=
      if env.diskCreateFails then (none, st1)
      else
        let d := "disk-" ++ toString st1.nextId
        (some d, { st1 with durableDisks := st1.durableDisks ++ [d],
                            nextId := st1.nextId + 1 })
    let st3 : LifecycleState :=
      if env.insertFails then step2.2
      else
        { step2.2 with rows := step2.2.rows ++
            [{ id := acxId, user_id := userId,
               acontext_session_id := some acxId,
               acontext_disk_id := step2.1,
               title := title.getD "New Chat" }] }
    (some (acxId, acxId), st3)

/-- Modelled from the spec: getOrCreateSession (resolveSession) lives in
lib/chat-session.ts, which is not under src/.  Per section 4.1 of the spec:
if existingSessionId is given and owned by userId, return that Session;
otherwise create a new Session, which the present sources do through
createAcontextSessionDirectly (embedded above from
lib/acontext-integration.ts). -/
def getOrCreateSession (env : LifecycleEnv) (st : LifecycleState)
    (userId : String) (existingSessionId : Option String) :
    Option ChatSessionRow × LifecycleState :=
  match existingSessionId with
  | some sid =>
    match st.rows.find? (fun r => r.id == sid && r.user_id == userId) with
    | some row => (some row, st)
    | none =>
      match createAcontextSessionDirectly env st userId none with
      | (some ids, st2) => (st2.rows.find? (fun r => r.id == ids.2), st2)
      | (none, st2) => (none, st2)
  | none =>
    match createAcontextSessionDirectly env st userId none with
    | (some ids, st2) => (st2.rows.find? (fun r => r.id == ids.2), st2)
    | (none, st2) => (none, st2)

/-- Embedding of deleteAcontextSession (lib/acontext-integration.ts):
returns false when the client is not configured; deletes the chat_sessions
rows whose acontext_session_id matches and returns true, or returns false
when that delete fails.  The source only removes the Supabase mapping; its
comments state the durable Acontext session remains, and no durable
session or disk release call is made. -/
def deleteAcontextSession (env : LifecycleEnv) (st : LifecycleState)
    (acontextSessionId : String) : Bool × LifecycleState :=
  if ¬ env.clientConfigured then (false, st)
  else if env.deleteMappingFails then (false, st)
  else
    (true,
      { st with rows := (st.rows.filter
          (fun r => decide (r.acontext_session_id ≠ some acontextSessionId))) })

end PptOrch

namespace PptOrch

/-! ## Helper lemmas (shared) -/

/-- The structurally recursive attachment part list agrees with the map the
route performs over attachmentInfo. -/
theorem attachmentParts_eq_map (attachmentInfo : List AttachmentInfo) :
    attachmentParts attachmentInfo
      = attachmentInfo.map (fun att =>
          if isImageAttachment att then ContentPart.imageUrl (attachmentDataUrl att)
          else ContentPart.text (attachmentRefText att)) := by
  induction attachmentInfo with
  | nil => rfl
  | cons a rest ih => simp [attachmentParts, ih]

/-- Reading a session back without strategies projects the stored blob
contents in order. -/
theorem load_map_content (env : StoreEnv)
    (applyEditStrategies : List EditStrategy → List StoredBlob → List StoredBlob)
    (store : SessionStore) (sid : String)
    (hc : env.clientConfigured = true) (hl : env.loadFails = false)
    (hsid : sid ≠ "") :
    (loadMessagesFromAcontext env applyEditStrategies store sid none).map
        (·.content)
      = (getMessagesRaw store sid).map (·.content) := by
  unfold loadMessagesFromAcontext
  rw [if_neg (by simp [hc, hsid]), if_neg (by simp [hl])]
  rw [List.map_map]
  have h2 : (getMessagesRaw store sid).enum.map (fun p => p.2.content)
      = (getMessagesRaw store sid).map (·.content) := by
    rw [show (fun p : Nat × StoredBlob => p.2.content)
        = ((fun b : StoredBlob => b.content) ∘ Prod.snd) from rfl]
    rw [← List.map_map, List.enum_map_snd]
  rw [← h2]
  rfl

/-- Appending one blob for a session extends that session's raw message view
by exactly that blob. -/
theorem getMessagesRaw_append (store : SessionStore) (sid : String)
    (blob : StoredBlob) :
    getMessagesRaw (store ++ [(sid, blob)]) sid
      = getMessagesRaw store sid ++ [blob] := by
  simp [getMessagesRaw]

/-! ## Claims C1, C4, C5: the context editing policy -/

/-- C1: for every available token-usage snapshot with total_tokens greater
than the high-water mark (default 80000) and every message list,
determineEditStrategies returns exactly the single strategy token_limit with
limit_tokens equal to the low-water mark (default 70000), and no tool-result
or tool-call-argument trimming strategy, regardless of the tool calls or
tool results in the messages. -/
theorem determineEditStrategies_over_highWaterMark (tc : TokenCounts)
    (messages : List PolicyMsg) (h : 80000 < tc.total_tokens) :
    determineEditStrategies (some tc) messages none
      = [EditStrategy.tokenLimit 70000] := by
  have h0 : ¬ tc.total_tokens = 0 := by omega
  simp [determineEditStrategies, h0, h]

/-- Witness for C1 at a concrete input: a snapshot of 123456 tokens and a
message list with seven tool results and 35 tool calls still yields only the
token_limit strategy. -/
theorem determineEditStrategies_over_highWaterMark_witness :
    determineEditStrategies (some ⟨123456⟩)
        (List.replicate 7 ⟨"tool", JsToolCalls.array 5⟩) none
      = [EditStrategy.tokenLimit 70000] :=
  determineEditStrategies_over_highWaterMark ⟨123456⟩
    (List.replicate 7 ⟨"tool", JsToolCalls.array 5⟩) (by decide)

/-- Counterexample to C4 as stated: the snapshot `⟨0⟩` is available
(non-null) and its total does not exceed the high-water mark, and the
message list holds six tool-result messages (more than the default threshold
of five), yet determineEditStrategies returns the empty list, not the single
remove_tool_result strategy: the source treats a zero total like an absent
snapshot and returns no strategies. -/
theorem determineEditStrategies_zero_total_counterexample :
    ¬ (determineEditStrategies (some ⟨0⟩)
        (List.replicate 6 ⟨"tool", JsToolCalls.absent⟩) none
      = [EditStrategy.removeToolResult 3 "Done"]) := by
  decide

/-- C4 (amended): for every available token-usage snapshot whose total is
nonzero and does not exceed the high-water mark (default 80000) and every
message list with more than toolResultThreshold (default 5) tool-result
messages, determineEditStrategies returns exactly one strategy:
remove_tool_result with keep_recent_n_tool_results = max 3 (5 / 2) = 3 and
placeholder "Done"; in particular no tool-call-argument strategy is also
emitted even when the tool-call count exceeds its own threshold. -/
theorem determineEditStrategies_toolResults_only (tc : TokenCounts)
    (messages : List PolicyMsg)
    (h0 : 0 < tc.total_tokens) (h1 : tc.total_tokens ≤ 80000)
    (h2 : 5 < countToolResults messages) :
    determineEditStrategies (some tc) messages none
      = [EditStrategy.removeToolResult 3 "Done"] := by
  have h0' : ¬ tc.total_tokens = 0 := by omega
  have h1' : ¬ tc.total_tokens > 80000 := by omega
  simp [determineEditStrategies, h0', h1', h2]

/-- Witness for C4 (amended) at a concrete input: 100 total tokens, six
tool-result messages carrying 120 tool calls in all (far above the tool-call
threshold of 10), and the decision is still the single remove_tool_result
strategy. -/
theorem determineEditStrategies_toolResults_only_witness :
    determineEditStrategies (some ⟨100⟩)
        (List.replicate 6 ⟨"tool", JsToolCalls.array 20⟩) none
      = [EditStrategy.removeToolResult 3 "Done"] :=
  determineEditStrategies_toolResults_only ⟨100⟩
    (List.replicate 6 ⟨"tool", JsToolCalls.array 20⟩)
    (by decide) (by decide) (by decide)

/-- C5: if the token-usage snapshot is unavailable (tokenCounts is null),
determineEditStrategies returns the empty strategy list for every message
list and every configuration, no matter how many tool calls or tool results
the messages contain. -/
theorem determineEditStrategies_no_tokenCounts (messages : List PolicyMsg)
    (config : Option EditConfig) :
    determineEditStrategies none messages config = [] := rfl

/-! ## Claims C2, C6, C8: the message store adapter -/

/-- C2: the claim says the assistant message persisted on final_message
carries all ToolInvocation records of the turn.  The code does not: in the
final_message branch the route passes only the final text to
storeMessageInAcontext, which builds the blob as role and content alone, so
the turn below — final text "All slides are ready." with one image_generate
invocation — reads back with toolCalls equal to none.  The repository
document docs/s3-plain-vs-presigned-url-analysis.md names exactly this as
the root-cause bug to fix, and the spec assumes the fixed behaviour. -/
theorem final_message_persisted_without_toolCalls :
    (loadMessagesFromAcontext ⟨true, false, false⟩ (fun _ l => l)
        (persistFinalMessageStreaming ⟨true, false, false⟩ [] "sess-1"
          "All slides are ready." [⟨"call-1", "image_generate", "slide=1"⟩])
        "sess-1" none).map (fun m => (m.role, m.content, m.toolCalls))
      = [(Role.assistant, Content.str "All slides are ready.", none)] := by
  decide

/-- C6: for every multi-part message content, storing it via the message
store adapter and reading the session back with no edit strategies yields
the same parts in the same order and with the same count, image parts still
typed as image parts: the read-back content sequence is the prior content
sequence extended by exactly the stored part list. -/
theorem store_load_roundtrip_parts (env : StoreEnv)
    (applyEditStrategies : List EditStrategy → List StoredBlob → List StoredBlob)
    (store : SessionStore) (sid : String) (role : Role) (ps : List ContentPart)
    (hc : env.clientConfigured = true) (hs : env.storeFails = false)
    (hl : env.loadFails = false) (hsid : sid ≠ "") :
    (storeMessageInAcontext env store sid role (Content.parts ps)).1 = true ∧
    (loadMessagesFromAcontext env applyEditStrategies
        (storeMessageInAcontext env store sid role (Content.parts ps)).2
        sid none).map (·.content)
      = (loadMessagesFromAcontext env applyEditStrategies store sid none).map
          (·.content) ++ [Content.parts ps] := by
  have hstore : storeMessageInAcontext env store sid role (Content.parts ps)
      = (true, store ++ [(sid, ⟨role, Content.parts ps, none⟩)]) := by
    simp [storeMessageInAcontext, hc, hs]
  refine ⟨by rw [hstore], ?_⟩
  rw [hstore]
  rw [load_map_content env applyEditStrategies _ sid hc hl hsid,
      load_map_content env applyEditStrategies store sid hc hl hsid,
      getMessagesRaw_append]
  simp

/-- Witness for C6 at a concrete input: a two-part content (text plus image)
stored on session s1 over an empty log reads back as exactly that part
list. -/
theorem store_load_roundtrip_parts_witness :
    (storeMessageInAcontext ⟨true, false, false⟩ [] "s1" Role.user
        (Content.parts [ContentPart.text "hi",
          ContentPart.imageUrl "data:image/png;base64,QUJD"])).1 = true ∧
    (loadMessagesFromAcontext ⟨true, false, false⟩ (fun _ l => l)
        (storeMessageInAcontext ⟨true, false, false⟩ [] "s1" Role.user
          (Content.parts [ContentPart.text "hi",
            ContentPart.imageUrl "data:image/png;base64,QUJD"])).2
        "s1" none).map (·.content)
      = (loadMessagesFromAcontext ⟨true, false, false⟩ (fun _ l => l) [] "s1"
          none).map (·.content)
        ++ [Content.parts [ContentPart.text "hi",
          ContentPart.imageUrl "data:image/png;base64,QUJD"]] :=
  store_load_roundtrip_parts ⟨true, false, false⟩ (fun _ l => l) [] "s1"
    Role.user
    [ContentPart.text "hi", ContentPart.imageUrl "data:image/png;base64,QUJD"]
    rfl rfl rfl (by decide)

/-- C8: the message-store append never throws to its caller — its result is
a plain boolean (the embedding returns Bool, not an exception type) — and
the boolean is true exactly on success: false whenever the provider is not
configured or the storage call fails. -/
theorem storeMessageInAcontext_boolean_contract (env : StoreEnv)
    (store : SessionStore) (sid : String) (role : Role) (content : Content) :
    (storeMessageInAcontext env store sid role content).1 = true
      ↔ (env.clientConfigured = true ∧ env.storeFails = false) := by
  unfold storeMessageInAcontext
  cases hc : env.clientConfigured <;> cases hs : env.storeFails <;> simp

/-! ## Claim C3: user message assembly with image attachments -/

/-- Counterexample to C3 as stated: with typed message "hi" and the
attachment list [notes.pdf, pic.png], the route emits the parts in
attachment order — text "hi", then the text reference for notes.pdf, then
the image part for pic.png — which differs from the spec order (text, then
all image parts, then non-image references trailing). -/
theorem buildUserMessageContent_specOrder_counterexample :
    buildUserMessageContent "hi"
        [⟨"notes.pdf", "UERG", "application/pdf"⟩,
         ⟨"pic.png", "QUJD", "image/png"⟩]
      ≠ buildUserMessageContentSpecOrder "hi"
        [⟨"notes.pdf", "UERG", "application/pdf"⟩,
         ⟨"pic.png", "QUJD", "image/png"⟩] := by
  decide

/-- C3 (amended): for every chat request whose attachments include at least
one image, the assembled outgoing user message is a multi-part content list
ordered as: the text part of the typed message first (when the message is
non-blank), then one part per attachment in the order the attachments were
supplied — an image part for each image attachment and a text reference for
each non-image attachment — so non-image references interleave with image
parts instead of trailing. -/
theorem buildUserMessageContent_attachment_order (message : String)
    (attachmentInfo : List AttachmentInfo)
    (h : attachmentInfo.any isImageAttachment = true) :
    buildUserMessageContent message attachmentInfo
      = Content.parts
          ((if messageHasText message then [ContentPart.text message] else [])
            ++ attachmentParts attachmentInfo) := by
  have hlen : 0 < attachmentInfo.length := by
    cases attachmentInfo with
    | nil => simp [List.any] at h
    | cons a l => simp
  simp [buildUserMessageContent, hlen, h, attachmentParts_eq_map]

/-- Witness for C3 (amended) at the concrete input of the counterexample:
one pdf then one image yields text, pdf reference, image — in attachment
order. -/
theorem buildUserMessageContent_attachment_order_witness :
    buildUserMessageContent "hi"
        [⟨"notes.pdf", "UERG", "application/pdf"⟩,
         ⟨"pic.png", "QUJD", "image/png"⟩]
      = Content.parts
          ((if messageHasText "hi" then [ContentPart.text "hi"] else [])
            ++ attachmentParts
              [⟨"notes.pdf", "UERG", "application/pdf"⟩,
               ⟨"pic.png", "QUJD", "image/png"⟩]) :=
  buildUserMessageContent_attachment_order "hi"
    [⟨"notes.pdf", "UERG", "application/pdf"⟩,
     ⟨"pic.png", "QUJD", "image/png"⟩] (by decide)

/-! ## Claim C10: request validation precedes all work -/

/-- C10: every POST /api/chatbot request that authenticates and parses but
whose message field is missing, not a string, or longer than 100000
characters is answered with HTTP 400 and an empty effect trace: no session
is resolved or created, no attachment is uploaded, no message is persisted,
and the language model is not invoked. -/
theorem post_validation_precedes_work (req : ChatRequestModel)
    (finalText : String)
    (hauth : req.authenticated = true) (hparse : req.bodyParses = true)
    (hbad : req.message = MessageField.absent
      ∨ req.message = MessageField.nonString
      ∨ ∃ s, req.message = MessageField.str s ∧ 100000 < s.length) :
    postPipeline req finalText = (400, []) := by
  rcases hbad with h | h | ⟨s, hs, hlen⟩
  · simp [postPipeline, hauth, hparse, h]
  · simp [postPipeline, hauth, hparse, h]
  · have hne : ¬ s = "" := by
      intro he
      subst he
      exact (by decide : ¬ (100000 < String.length "")) hlen
    simp [postPipeline, hauth, hparse, hs, hne, hlen]

/-- Witness for C10 at a concrete input: an authenticated, well-parsed
request with a missing message field gets status 400 and no effects. -/
theorem post_validation_precedes_work_witness :
    postPipeline ⟨true, true, MessageField.absent, [], true⟩ "ok"
      = (400, []) :=
  post_validation_precedes_work ⟨true, true, MessageField.absent, [], true⟩
    "ok" rfl rfl (Or.inl rfl)

/-! ## Claims C7, C9: session lifecycle -/

/-- C7: resolving the same existing owned session id twice returns the same
Session row — identical durable-session reference (acontext_session_id) and
identical durable-workspace reference (acontext_disk_id) — and leaves the
state unchanged both times: no durable session record and no durable disk
record is created or recreated while the Session exists. -/
theorem resolveSession_idempotent (env : LifecycleEnv) (st : LifecycleState)
    (userId sid : String) (row : ChatSessionRow)
    (h : st.rows.find? (fun r => r.id == sid && r.user_id == userId)
      = some row) :
    getOrCreateSession env st userId (some sid) = (some row, st) ∧
    getOrCreateSession env
        (getOrCreateSession env st userId (some sid)).2 userId (some sid)
      = (some row, st) := by
  have h1 : getOrCreateSession env st userId (some sid) = (some row, st) := by
    simp [getOrCreateSession, h]
  exact ⟨h1, by rw [h1]; exact h1⟩

/-- Witness for C7 at a concrete input: a state holding the session row
acx-1 of user u1 (durable session acx-1, disk d-1) resolves twice to the
same row with the state unchanged. -/
theorem resolveSession_idempotent_witness :
    getOrCreateSession ⟨true, false, false, false, false⟩
        ⟨[⟨"acx-1", "u1", some "acx-1", some "d-1", "Chat"⟩],
          ["acx-1"], ["d-1"], 2⟩ "u1" (some "acx-1")
      = (some ⟨"acx-1", "u1", some "acx-1", some "d-1", "Chat"⟩,
          ⟨[⟨"acx-1", "u1", some "acx-1", some "d-1", "Chat"⟩],
            ["acx-1"], ["d-1"], 2⟩) ∧
    getOrCreateSession ⟨true, false, false, false, false⟩
        (getOrCreateSession ⟨true, false, false, false, false⟩
          ⟨[⟨"acx-1", "u1", some "acx-1", some "d-1", "Chat"⟩],
            ["acx-1"], ["d-1"], 2⟩ "u1" (some "acx-1")).2 "u1" (some "acx-1")
      = (some ⟨"acx-1", "u1", some "acx-1", some "d-1", "Chat"⟩,
          ⟨[⟨"acx-1", "u1", some "acx-1", some "d-1", "Chat"⟩],
            ["acx-1"], ["d-1"], 2⟩) :=
  resolveSession_idempotent ⟨true, false, false, false, false⟩
    ⟨[⟨"acx-1", "u1", some "acx-1", some "d-1", "Chat"⟩],
      ["acx-1"], ["d-1"], 2⟩ "u1" "acx-1"
    ⟨"acx-1", "u1", some "acx-1", some "d-1", "Chat"⟩ (by decide)

/-- Counterexample to C9 as stated: deleting session acx-1 succeeds (true)
and removes the local mapping row, yet the durable session record acx-1 and
the durable disk record d-1 both remain at the provider — no release of the
durable session/workspace records is attempted, contradicting the part of
the claim that explicit deletion releases them (the source only removes the
Supabase mapping and its comments say the Acontext session remains). -/
theorem deleteAcontextSession_no_release_counterexample :
    ((deleteAcontextSession ⟨true, false, false, false, false⟩
        ⟨[⟨"acx-1", "u1", some "acx-1", some "d-1", "Chat"⟩],
          ["acx-1"], ["d-1"], 2⟩ "acx-1").1 = true) ∧
    ((deleteAcontextSession ⟨true, false, false, false, false⟩
        ⟨[⟨"acx-1", "u1", some "acx-1", some "d-1", "Chat"⟩],
          ["acx-1"], ["d-1"], 2⟩ "acx-1").2.rows = []) ∧
    ((deleteAcontextSession ⟨true, false, false, false, false⟩
        ⟨[⟨"acx-1", "u1", some "acx-1", some "d-1", "Chat"⟩],
          ["acx-1"], ["d-1"], 2⟩ "acx-1").2.durableSessions = ["acx-1"]) ∧
    ((deleteAcontextSession ⟨true, false, false, false, false⟩
        ⟨[⟨"acx-1", "u1", some "acx-1", some "d-1", "Chat"⟩],
          ["acx-1"], ["d-1"], 2⟩ "acx-1").2.durableDisks = ["d-1"]) := by
  decide

/-- C9 (amended): for every session id, when the provider client is
configured and the mapping delete succeeds, deleteSession returns true and
removes the local mapping rows of that durable session; it attempts no
release of the durable session or workspace records, whose provider-side
lists are unchanged (cleanup of durable records is deferred or manual). -/
theorem deleteAcontextSession_local_only (env : LifecycleEnv)
    (st : LifecycleState) (sid : String)
    (hc : env.clientConfigured = true) (hd : env.deleteMappingFails = false) :
    (deleteAcontextSession env st sid).1 = true ∧
    (deleteAcontextSession env st sid).2.rows
      = st.rows.filter (fun r => decide (r.acontext_session_id ≠ some sid)) ∧
    (deleteAcontextSession env st sid).2.durableSessions
      = st.durableSessions ∧
    (deleteAcontextSession env st sid).2.durableDisks = st.durableDisks := by
  unfold deleteAcontextSession
  rw [if_neg (by simp [hc]), if_neg (by simp [hd])]
  exact ⟨rfl, rfl, rfl, rfl⟩

/-- Witness for C9 (amended) at a concrete input: deleting acx-1 removes the
only mapping row and leaves the durable record lists exactly as they
were. -/
theorem deleteAcontextSession_local_only_witness :
    ((deleteAcontextSession ⟨true, false, false, false, false⟩
        ⟨[⟨"acx-1", "u1", some "acx-1", some "d-1", "Chat"⟩],
          ["acx-1"], ["d-1"], 2⟩ "acx-1").1 = true) ∧
    ((deleteAcontextSession ⟨true, false, false, false, false⟩
        ⟨[⟨"acx-1", "u1", some "acx-1", some "d-1", "Chat"⟩],
          ["acx-1"], ["d-1"], 2⟩ "acx-1").2.durableSessions = ["acx-1"]) ∧
    ((deleteAcontextSession ⟨true, false, false, false, false⟩
        ⟨[⟨"acx-1", "u1", some "acx-1", some "d-1", "Chat"⟩],
          ["acx-1"], ["d-1"], 2⟩ "acx-1").2.durableDisks = ["d-1"]) := by
  have h := deleteAcontextSession_local_only
    ⟨true, false, false, false, false⟩
    ⟨[⟨"acx-1", "u1", some "acx-1", some "d-1", "Chat"⟩],
      ["acx-1"], ["d-1"], 2⟩ "acx-1" rfl rfl
  exact ⟨h.1, h.2.2.1, h.2.2.2⟩

end PptOrch
